import Mathlib

/-!
# Verification of the hlcup2017 in-memory store (`src/main.go`)

Shallow embedding of the core of `main.go`: the record types, the
in-memory store (`InmemoryDB`), the insert/get/update primitives, the two
analytical queries (`queryVisits`, `queryAverage`) and the age computation
(`computeAge`).  Go maps (`map[int32]*T`) are modelled as association
lists `List (Int × T)` whose list order stands for one map-iteration
order; Go's `int32`/`int64`/`int8` values are modelled as `Int` (no
operation relevant to the verified properties can overflow), strings as
`String`, and Go's `float64` division of two integers as exact division
in `ℚ`.  A Go nil-pointer dereference (a query resolving a dangling
foreign key) is modelled by the scan returning `none`.
-/

/-- `User` record, as in `main.go` lines 23-30. -/
structure User where
  id : Int
  email : String
  firstName : String
  lastName : String
  gender : String
  birthDate : Int
deriving DecidableEq, Repr

/-- `Location` record, as in `main.go` lines 33-39. -/
structure Location where
  id : Int
  place : String
  country : String
  city : String
  distance : Int
deriving DecidableEq, Repr

/-- `Visit` record, as in `main.go` lines 42-48. -/
structure Visit where
  id : Int
  location : Int
  user : Int
  visitedAt : Int
  mark : Int
deriving DecidableEq, Repr

/-- `VisitPlace` projection, response shape of `/users/{id}/visits`
(`main.go` lines 66-70). -/
structure VisitPlace where
  place : String
  visitedAt : Int
  mark : Int
deriving DecidableEq, Repr

/-- `UserUpdate`, request type of `POST /users/{id}` (`main.go` lines
73-79): every field optional, presence tracked by `Option`. -/
structure UserUpdate where
  email : Option String := none
  firstName : Option String := none
  lastName : Option String := none
  gender : Option String := none
  birthDate : Option Int := none
deriving DecidableEq, Repr

/-- `LocationUpdate`, request type of `POST /locations/{id}` (`main.go`
lines 82-87). -/
structure LocationUpdate where
  place : Option String := none
  country : Option String := none
  city : Option String := none
  distance : Option Int := none
deriving DecidableEq, Repr

/-- `VisitUpdate`, request type of `POST /visits/{id}` (`main.go` lines
90-95). -/
structure VisitUpdate where
  location : Option Int := none
  user : Option Int := none
  visitedAt : Option Int := none
  mark : Option Int := none
deriving DecidableEq, Repr

/-- Lookup in an association list modelling a Go `map[int32]*T`:
`m[id]` returns the value stored under `id`, or `none`. -/
def lookupId {α : Type} (id : Int) : List (Int × α) → Option α
  | [] => none
  | kv :: rest => if kv.1 = id then some kv.2 else lookupId id rest

/-- `InmemoryDB` (`main.go` lines 126-131): the three identity-keyed
collections.  Each list's order stands for one Go-map iteration order. -/
structure InmemoryDB where
  users : List (Int × User)
  locations : List (Int × Location)
  visits : List (Int × Visit)
deriving DecidableEq, Repr

/-- `newInmemoryDB` (`main.go` lines 133-139): all three maps empty. -/
def newInmemoryDB : InmemoryDB := ⟨[], [], []⟩

/-- `errConflictID` (`main.go` line 142). -/
inductive DBError where
  | errConflictID
deriving DecidableEq, Repr

/-- `addUser` (`main.go` lines 149-158): conflict if the id is present,
otherwise store the record under its own id.  The pair returns the Go
error value and the store after the call. -/
def addUser (d : InmemoryDB) (user : User) : Option DBError × InmemoryDB :=
  match lookupId user.id d.users with
  | some _ => (some .errConflictID, d)
  | none => (none, { d with users := (user.id, user) :: d.users })

/-- `addLocation` (`main.go` lines 160-169). -/
def addLocation (d : InmemoryDB) (location : Location) : Option DBError × InmemoryDB :=
  match lookupId location.id d.locations with
  | some _ => (some .errConflictID, d)
  | none => (none, { d with locations := (location.id, location) :: d.locations })

/-- `addVisit` (`main.go` lines 171-180). -/
def addVisit (d : InmemoryDB) (visit : Visit) : Option DBError × InmemoryDB :=
  match lookupId visit.id d.visits with
  | some _ => (some .errConflictID, d)
  | none => (none, { d with visits := (visit.id, visit) :: d.visits })

/-- `getUser` (`main.go` lines 182-187): map lookup, `none` models the
Go nil pointer for an absent key. -/
def getUser (d : InmemoryDB) (id : Int) : Option User :=
  lookupId id d.users

/-- `getLocation` (`main.go` lines 189-194). -/
def getLocation (d : InmemoryDB) (id : Int) : Option Location :=
  lookupId id d.locations

/-- `getVisit` (`main.go` lines 196-201). -/
def getVisit (d : InmemoryDB) (id : Int) : Option Visit :=
  lookupId id d.visits

/-- The field-merge step of `updateUserHandler` (`main.go` lines
582-596): each field present in the payload overwrites, each absent
field is preserved.  The payload has no id field. -/
def applyUserUpdate (user : User) (upd : UserUpdate) : User :=
  { user with
    email := upd.email.getD user.email
    firstName := upd.firstName.getD user.firstName
    lastName := upd.lastName.getD user.lastName
    gender := upd.gender.getD user.gender
    birthDate := upd.birthDate.getD user.birthDate }

/-- The field-merge step of `updateLocationHandler` (`main.go` lines
646-657). -/
def applyLocationUpdate (location : Location) (upd : LocationUpdate) : Location :=
  { location with
    place := upd.place.getD location.place
    country := upd.country.getD location.country
    city := upd.city.getD location.city
    distance := upd.distance.getD location.distance }

/-- The field-merge step of `updateVisitHandler` (`main.go` lines
707-718). -/
def applyVisitUpdate (visit : Visit) (upd : VisitUpdate) : Visit :=
  { visit with
    location := upd.location.getD visit.location
    user := upd.user.getD visit.user
    visitedAt := upd.visitedAt.getD visit.visitedAt
    mark := upd.mark.getD visit.mark }

/-- State effect of `updateUserHandler` (`main.go` lines 540-602): look
the user up; absent id leaves the store unchanged (the handler answers
404), otherwise the entry's record is merged in place through the
retained pointer. -/
def updateUser (d : InmemoryDB) (id : Int) (upd : UserUpdate) : InmemoryDB :=
  match lookupId id d.users with
  | none => d
  | some _ =>
    { d with users := d.users.map (fun kv => if kv.1 = id then (kv.1, applyUserUpdate kv.2 upd) else kv) }

/-- State effect of `updateLocationHandler` (`main.go` lines 604-663). -/
def updateLocation (d : InmemoryDB) (id : Int) (upd : LocationUpdate) : InmemoryDB :=
  match lookupId id d.locations with
  | none => d
  | some _ =>
    { d with locations := d.locations.map (fun kv => if kv.1 = id then (kv.1, applyLocationUpdate kv.2 upd) else kv) }

/-- State effect of `updateVisitHandler` (`main.go` lines 665-724). -/
def updateVisit (d : InmemoryDB) (id : Int) (upd : VisitUpdate) : InmemoryDB :=
  match lookupId id d.visits with
  | none => d
  | some _ =>
    { d with visits := d.visits.map (fun kv => if kv.1 = id then (kv.1, applyVisitUpdate kv.2 upd) else kv) }

/-- Proleptic-Gregorian civil date `(year, month, day)` of a day count
relative to 1970-01-01 (Howard Hinnant's `civil_from_days`).  Models the
UTC date extraction `time.Unix(birth, 0).Year()/.Month()/.Day()` that
`computeAge` performs (the deployment container runs with TZ = UTC, see
`Dockerfile`; `birth_date` is a UTC Unix timestamp per the data format). -/
def civilFromDays (z0 : Int) : Int × Int × Int :=
  let z := z0 + 719468
  let era := z.fdiv 146097
  let doe := z - era * 146097
  let yoe := (doe - doe.fdiv 1460 + doe.fdiv 36524 - doe.fdiv 146096).fdiv 365
  let y := yoe + era * 400
  let doy := doe - (365 * yoe + yoe.fdiv 4 - yoe.fdiv 100)
  let mp := (5 * doy + 2).fdiv 153
  let day := doy - (153 * mp + 2).fdiv 5 + 1
  let m := mp + (if mp < 10 then 3 else -9)
  (y + (if m ≤ 2 then 1 else 0), m, day)

/-- Civil date of a Unix timestamp in seconds (UTC). -/
def civilOfUnix (t : Int) : Int × Int × Int :=
  civilFromDays (t.fdiv 86400)

/-- `computeAge` (`main.go` lines 246-260): the "current moment" is the
hardcoded constant `time.Date(2018, 12, 15, 20, 33, 0, 0, time.UTC)`;
age = now.year - birth.year, minus one when the current month is before
the birth month, or the months are equal and the current day is before
the birth day. -/
def computeAge (birth : Int) : Int :=
  let c := civilOfUnix birth
  let years := 2018 - c.1
  if 12 < c.2.1 ∨ (12 = c.2.1 ∧ 15 < c.2.2) then years - 1 else years

/-- Spec-side age computation (spec §4.2): identical calendar-year
arithmetic, but with the "current moment" `(nowY, nowM, nowD)` an
explicit injectable parameter, as the spec requires. -/
def computeAgeAt (nowY nowM nowD : Int) (birth : Int) : Int :=
  let c := civilOfUnix birth
  let years := nowY - c.1
  if nowM < c.2.1 ∨ (nowM = c.2.1 ∧ nowD < c.2.2) then years - 1 else years

/-- The comparison `Less` of `visitsByTime` (`main.go` lines 203-207),
relaxed to its non-strict form: the sort below places `a` before `b`
exactly when `a.visitedAt ≤ b.visitedAt`. -/
def vpLe (a b : VisitPlace) : Prop :=
  a.visitedAt ≤ b.visitedAt

instance : DecidableRel vpLe :=
  fun a b => inferInstanceAs (Decidable (a.visitedAt ≤ b.visitedAt))

instance : IsTotal VisitPlace vpLe :=
  ⟨fun a b => Int.le_total a.visitedAt b.visitedAt⟩

instance : IsTrans VisitPlace vpLe :=
  ⟨fun _ _ _ => Int.le_trans⟩

/-- `sort.Sort(visitsByTime(visits))` (`main.go` line 240), modelled as
a deterministic comparison sort by `visitedAt`.  Go's `sort.Sort` runs
plain insertion sort on slices of fewer than 12 elements (which keeps
elements with equal `visitedAt` in input order, since `Less` is strict),
and always returns some list sorted under `vpLe` that is a permutation
of its input; those are the only properties used below. -/
def sortVisits (l : List VisitPlace) : List VisitPlace :=
  l.insertionSort vpLe

/-- The values of a collection in iteration order. -/
def listValues {α : Type} (m : List (Int × α)) : List α :=
  m.map Prod.snd

/-- One iteration of the `queryVisits` scan (`main.go` lines 215-238)
for a single visit: `some none` means the visit was skipped by a filter,
`some (some vp)` means it qualified and was projected, `none` means the
code dereferenced a nil `location` pointer (dangling foreign key). -/
def visitStep (d : InmemoryDB) (userID fromDate toDate : Int) (country : String)
    (toDistance : Int) (v : Visit) : Option (Option VisitPlace) :=
  if userID ≠ v.user then some none
  else if fromDate ≥ v.visitedAt then some none
  else if toDate ≤ v.visitedAt then some none
  else
    match getLocation d v.location with
    | none => none
    | some location =>
      if country.length ≠ 0 ∧ country ≠ location.country then some none
      else if toDistance ≤ location.distance then some none
      else some (some ⟨location.place, v.visitedAt, v.mark⟩)

/-- The `for _, v := range d.visits` loop of `queryVisits` (`main.go`
lines 215-238) over one iteration order, collecting the qualifying
projections in iteration order; `none` models the nil-pointer panic. -/
def scanVisits (d : InmemoryDB) (userID fromDate toDate : Int) (country : String)
    (toDistance : Int) : List Visit → Option (List VisitPlace)
  | [] => some []
  | v :: rest =>
    match visitStep d userID fromDate toDate country toDistance v with
    | none => none
    | some none => scanVisits d userID fromDate toDate country toDistance rest
    | some (some vp) => (scanVisits d userID fromDate toDate country toDistance rest).map (vp :: ·)

/-- `queryVisits` (`main.go` lines 209-243): scan all visits in the
store's iteration order, then sort the qualifying projections by
`visited_at`. -/
def queryVisits (d : InmemoryDB) (userID fromDate toDate : Int) (country : String)
    (toDistance : Int) : Option (List VisitPlace) :=
  (scanVisits d userID fromDate toDate country toDistance (listValues d.visits)).map sortVisits

/-- Spec-side characterization (spec §4.2 / claim C2): the projection of
one visit when it qualifies — it belongs to `userID`, `visited_at` lies
strictly between the date bounds, its location resolves, the location's
country matches whenever a non-empty country filter was given, and the
location's distance is strictly below `toDistance`. -/
def specVisitProj (locations : List (Int × Location)) (userID fromDate toDate : Int)
    (country : String) (toDistance : Int) (v : Visit) : Option VisitPlace :=
  match lookupId v.location locations with
  | none => none
  | some location =>
    if v.user = userID ∧ fromDate < v.visitedAt ∧ v.visitedAt < toDate ∧
        (country = "" ∨ location.country = country) ∧ location.distance < toDistance
    then some ⟨location.place, v.visitedAt, v.mark⟩
    else none

/-- Spec-side result multiset of the visits query: the projections of
exactly the qualifying visits, in the order scanned. -/
def specVisitList (locations : List (Int × Location)) (userID fromDate toDate : Int)
    (country : String) (toDistance : Int) (l : List Visit) : List VisitPlace :=
  l.filterMap (specVisitProj locations userID fromDate toDate country toDistance)

/-- One iteration of the `queryAverage` scan (`main.go` lines 269-296)
for a single visit: `some true` counts the visit, `some false` skips it,
`none` means the code dereferenced a nil `user` pointer (`computeAge`
dereferences unconditionally once the location and date filters pass). -/
def avgStep (d : InmemoryDB) (locationID fromDate toDate fromAge toAge : Int)
    (gender : String) (v : Visit) : Option Bool :=
  if locationID ≠ v.location then some false
  else if fromDate ≥ v.visitedAt then some false
  else if toDate ≤ v.visitedAt then some false
  else
    match getUser d v.user with
    | none => none
    | some user =>
      if gender.length ≠ 0 ∧ gender ≠ user.gender then some false
      else
        let age := computeAge user.birthDate
        if fromAge ≥ age then some false
        else if toAge ≤ age then some false
        else some true

/-- The `for _, v := range d.visits` loop of `queryAverage` (`main.go`
lines 269-296), accumulating `(count, sum)` over one iteration order. -/
def scanAverage (d : InmemoryDB) (locationID fromDate toDate fromAge toAge : Int)
    (gender : String) : List Visit → Option (Int × Int)
  | [] => some (0, 0)
  | v :: rest =>
    match avgStep d locationID fromDate toDate fromAge toAge gender v with
    | none => none
    | some false => scanAverage d locationID fromDate toDate fromAge toAge gender rest
    | some true =>
      (scanAverage d locationID fromDate toDate fromAge toAge gender rest).map
        (fun cs => (cs.1 + 1, cs.2 + v.mark))

/-- `queryAverage` (`main.go` lines 262-302): accumulate count and sum
over all visits, return `0` through the explicit `count == 0` branch,
and otherwise `float64(sum)/float64(count)`, modelled as exact division
in `ℚ`. -/
def queryAverage (d : InmemoryDB) (locationID fromDate toDate fromAge toAge : Int)
    (gender : String) : Option ℚ :=
  (scanAverage d locationID fromDate toDate fromAge toAge gender (listValues d.visits)).map
    (fun cs => if cs.1 = 0 then 0 else (cs.2 : ℚ) / (cs.1 : ℚ))

/-- Spec-side qualification (claim C3): the visit is at `locationID`,
its `visited_at` lies strictly between the date bounds, its user
resolves and passes the gender filter whenever a non-empty gender was
given, and the user's computed age lies strictly between the age
bounds. -/
def avgQualifies (users : List (Int × User)) (locationID fromDate toDate fromAge toAge : Int)
    (gender : String) (v : Visit) : Bool :=
  match lookupId v.user users with
  | none => false
  | some user =>
    decide (v.location = locationID) && decide (fromDate < v.visitedAt) &&
    decide (v.visitedAt < toDate) && (decide (gender = "") || decide (user.gender = gender)) &&
    decide (fromAge < computeAge user.birthDate) && decide (computeAge user.birthDate < toAge)

/-- Spec-side count of qualifying visits. -/
def specAvgCount (users : List (Int × User)) (locationID fromDate toDate fromAge toAge : Int)
    (gender : String) (l : List Visit) : Int :=
  (l.filter (avgQualifies users locationID fromDate toDate fromAge toAge gender)).length

/-- Spec-side sum of marks of qualifying visits. -/
def specAvgSum (users : List (Int × User)) (locationID fromDate toDate fromAge toAge : Int)
    (gender : String) (l : List Visit) : Int :=
  ((l.filter (avgQualifies users locationID fromDate toDate fromAge toAge gender)).map
    Visit.mark).sum

/-- Qualification of a visit for the average-mark query as the spec
words it (spec §4.2, §6), with the "current moment" `(nowY, nowM, nowD)`
an explicit injectable parameter used for the age computation. -/
def avgQualifiesAt (nowY nowM nowD : Int) (users : List (Int × User))
    (locationID fromDate toDate fromAge toAge : Int) (gender : String) (v : Visit) : Bool :=
  match lookupId v.user users with
  | none => false
  | some user =>
    decide (v.location = locationID) && decide (fromDate < v.visitedAt) &&
    decide (v.visitedAt < toDate) && (decide (gender = "") || decide (user.gender = gender)) &&
    decide (fromAge < computeAgeAt nowY nowM nowD user.birthDate) &&
    decide (computeAgeAt nowY nowM nowD user.birthDate < toAge)

/-- The average-mark query as the spec's external interface words it
(spec §6: `queryAverage(locationID, fromDate, toDate, fromAge, toAge,
gender, now)`), with the "current moment" an explicit argument: average
of the marks of the qualifying visits, `0` when none qualify. -/
def queryAverageSpecNow (nowY nowM nowD : Int) (d : InmemoryDB)
    (locationID fromDate toDate fromAge toAge : Int) (gender : String) : ℚ :=
  let qualifying := (listValues d.visits).filter
    (avgQualifiesAt nowY nowM nowD d.users locationID fromDate toDate fromAge toAge gender)
  if qualifying.length = 0 then 0
  else ((qualifying.map Visit.mark).sum : ℚ) / (qualifying.length : ℚ)

/-- Lock and record-access events of the store's mutex (`d.mux`,
`main.go` line 127): shared (read) lock and unlock, exclusive (write)
lock and unlock, reading a record out of a map, and writing a field of
a record held by a map. -/
inductive DBLockOp where
  | rLock
  | rUnlock
  | wLock
  | wUnlock
  | readRecord
  | writeRecordField
deriving DecidableEq, Repr

/-- Lock trace of `getUser` (`main.go` lines 182-187): `RLock`, read the
map entry, then the deferred `RUnlock` on return. -/
def getUserTrace : List DBLockOp :=
  [.rLock, .readRecord, .rUnlock]

/-- Lock trace of the store interaction of `updateUserHandler`
(`main.go` lines 549-596): it calls `getUser` (whose read lock is
released when `getUser` returns), and later writes the merged fields
through the retained `*User` pointer; the handler performs no lock
operation of its own — in particular it never takes `d.mux.Lock()`. -/
def updateUserHandlerTrace : List DBLockOp :=
  getUserTrace ++ [.writeRecordField]

/-- Checks a trace against the discipline the spec requires: every write
to a stored record happens while the exclusive (write) lock is held.
`w` is the current write-lock depth. -/
def writesUnderWriteLock (w : Int) : List DBLockOp → Bool
  | [] => true
  | .wLock :: tr => writesUnderWriteLock (w + 1) tr
  | .wUnlock :: tr => writesUnderWriteLock (w - 1) tr
  | .writeRecordField :: tr => decide (0 < w) && writesUnderWriteLock w tr
  | _ :: tr => writesUnderWriteLock w tr

/-- The id-key invariant of claim C10: every collection maps each
present key to a record whose own id field equals that key. -/
def IdKeyInv (d : InmemoryDB) : Prop :=
  (∀ kv ∈ d.users, kv.2.id = kv.1) ∧
  (∀ kv ∈ d.locations, kv.2.id = kv.1) ∧
  (∀ kv ∈ d.visits, kv.2.id = kv.1)

/-- Store states reachable from the empty store through the mutation
entry points of `main.go`: the three inserts (whether they succeed or
are rejected with a conflict) and the three partial updates. -/
inductive Reachable : InmemoryDB → Prop
  | init : Reachable newInmemoryDB
  | addU : ∀ d u, Reachable d → Reachable (addUser d u).2
  | addL : ∀ d l, Reachable d → Reachable (addLocation d l).2
  | addV : ∀ d v, Reachable d → Reachable (addVisit d v).2
  | updU : ∀ d id upd, Reachable d → Reachable (updateUser d id upd)
  | updL : ∀ d id upd, Reachable d → Reachable (updateLocation d id upd)
  | updV : ∀ d id upd, Reachable d → Reachable (updateVisit d id upd)

theorem string_length_eq_zero_iff (s : String) : s.length = 0 ↔ s = "" := by
  cases s with
  | mk data =>
    simp [String.length, String.ext_iff, List.length_eq_zero]

theorem specVisitProj_of_visitStep (d : InmemoryDB) (u f t : Int) (c : String) (td : Int)
    (v : Visit) (o : Option VisitPlace)
    (h : visitStep d u f t c td v = some o) :
    specVisitProj d.locations u f t c td v = o := by
  unfold visitStep getLocation at h
  unfold specVisitProj
  cases hl : lookupId v.location d.locations with
  | none =>
    rw [hl] at h
    split_ifs at h with h1 h2 h3 <;> cases h
    all_goals rfl
  | some loc =>
    rw [hl] at h
    dsimp only at h ⊢
    by_cases h1 : u ≠ v.user
    · rw [if_pos h1] at h
      cases h
      rw [if_neg]
      exact fun hc => h1 hc.1.symm
    · rw [if_neg h1] at h
      by_cases h2 : f ≥ v.visitedAt
      · rw [if_pos h2] at h
        cases h
        rw [if_neg]
        exact fun hc => absurd hc.2.1 (not_lt.mpr h2)
      · rw [if_neg h2] at h
        by_cases h3 : t ≤ v.visitedAt
        · rw [if_pos h3] at h
          cases h
          rw [if_neg]
          exact fun hc => absurd hc.2.2.1 (not_lt.mpr h3)
        · rw [if_neg h3] at h
          by_cases h4 : c.length ≠ 0 ∧ c ≠ loc.country
          · rw [if_pos h4] at h
            cases h
            rw [if_neg]
            rintro ⟨-, -, -, hc | hc, -⟩
            · exact h4.1 ((string_length_eq_zero_iff c).mpr hc)
            · exact h4.2 hc.symm
          · rw [if_neg h4] at h
            by_cases h5 : td ≤ loc.distance
            · rw [if_pos h5] at h
              cases h
              rw [if_neg]
              exact fun hc => absurd hc.2.2.2.2 (not_lt.mpr h5)
            · rw [if_neg h5] at h
              cases h
              rw [if_pos]
              refine ⟨(not_ne_iff.mp h1).symm, not_le.mp h2, not_le.mp h3, ?_, not_le.mp h5⟩
              rcases not_and_or.mp h4 with hc | hc
              · exact Or.inl ((string_length_eq_zero_iff c).mp (not_ne_iff.mp hc))
              · exact Or.inr (not_ne_iff.mp hc).symm

theorem scanVisits_some_eq (d : InmemoryDB) (u f t : Int) (c : String) (td : Int) :
    ∀ (l : List Visit) (r : List VisitPlace),
      scanVisits d u f t c td l = some r →
      r = specVisitList d.locations u f t c td l := by
  intro l
  induction l with
  | nil =>
    intro r h
    simp [scanVisits] at h
    simp [specVisitList, ← h]
  | cons v rest ih =>
    intro r h
    rw [scanVisits] at h
    cases hv : visitStep d u f t c td v with
    | none =>
      rw [hv] at h
      cases h
    | some o =>
      rw [hv] at h
      cases o with
      | none =>
        have hp := specVisitProj_of_visitStep d u f t c td v none hv
        simp only [specVisitList, List.filterMap_cons, hp]
        exact ih r h
      | some vp =>
        cases hrest : scanVisits d u f t c td rest with
        | none =>
          rw [hrest] at h
          cases h
        | some r' =>
          rw [hrest] at h
          cases h
          have hp := specVisitProj_of_visitStep d u f t c td v (some vp) hv
          simp only [specVisitList, List.filterMap_cons, hp]
          exact congrArg (vp :: ·) (ih r' hrest)

theorem avgQualifies_of_avgStep (d : InmemoryDB) (lid f t fa ta : Int) (g : String)
    (v : Visit) (b : Bool)
    (h : avgStep d lid f t fa ta g v = some b) :
    avgQualifies d.users lid f t fa ta g v = b := by
  unfold avgStep getUser at h
  unfold avgQualifies
  cases hl : lookupId v.user d.users with
  | none =>
    rw [hl] at h
    split_ifs at h with h1 h2 h3 <;> cases h
    all_goals rfl
  | some user =>
    rw [hl] at h
    dsimp only at h ⊢
    by_cases h1 : lid ≠ v.location
    · rw [if_pos h1] at h
      cases h
      simp [decide_eq_false (Ne.symm h1)]
    · rw [if_neg h1] at h
      by_cases h2 : f ≥ v.visitedAt
      · rw [if_pos h2] at h
        cases h
        simp [decide_eq_false (not_lt.mpr h2)]
      · rw [if_neg h2] at h
        by_cases h3 : t ≤ v.visitedAt
        · rw [if_pos h3] at h
          cases h
          simp [decide_eq_false (not_lt.mpr h3)]
        · rw [if_neg h3] at h
          by_cases h4 : g.length ≠ 0 ∧ g ≠ user.gender
          · rw [if_pos h4] at h
            cases h
            have hg1 : g ≠ "" := fun he => h4.1 ((string_length_eq_zero_iff g).mpr he)
            have hg2 : user.gender ≠ g := fun he => h4.2 he.symm
            simp [decide_eq_false hg1, decide_eq_false hg2]
          · rw [if_neg h4] at h
            by_cases h5 : fa ≥ computeAge user.birthDate
            · rw [if_pos h5] at h
              cases h
              simp [decide_eq_false (not_lt.mpr h5)]
            · rw [if_neg h5] at h
              by_cases h6 : ta ≤ computeAge user.birthDate
              · rw [if_pos h6] at h
                cases h
                simp [decide_eq_false (not_lt.mpr h6)]
              · rw [if_neg h6] at h
                cases h
                have hg : g = "" ∨ user.gender = g := by
                  rcases not_and_or.mp h4 with hc | hc
                  · exact Or.inl ((string_length_eq_zero_iff g).mp (not_ne_iff.mp hc))
                  · exact Or.inr (not_ne_iff.mp hc).symm
                rcases hg with hg | hg <;>
                  simp [decide_eq_true (not_ne_iff.mp h1).symm, decide_eq_true (not_le.mp h2),
                    decide_eq_true (not_le.mp h3), decide_eq_true (not_le.mp h5),
                    decide_eq_true (not_le.mp h6), hg]

theorem scanAverage_some_eq (d : InmemoryDB) (lid f t fa ta : Int) (g : String) :
    ∀ (l : List Visit) (cs : Int × Int),
      scanAverage d lid f t fa ta g l = some cs →
      cs = (specAvgCount d.users lid f t fa ta g l, specAvgSum d.users lid f t fa ta g l) := by
  intro l
  induction l with
  | nil =>
    intro cs h
    simp [scanAverage] at h
    simp [specAvgCount, specAvgSum, ← h]
  | cons v rest ih =>
    intro cs h
    rw [scanAverage] at h
    cases hv : avgStep d lid f t fa ta g v with
    | none =>
      rw [hv] at h
      cases h
    | some b =>
      rw [hv] at h
      have hq := avgQualifies_of_avgStep d lid f t fa ta g v b hv
      cases b with
      | false =>
        simp only [specAvgCount, specAvgSum, List.filter_cons, hq, Bool.false_eq_true,
          if_false]
        exact ih cs h
      | true =>
        cases hrest : scanAverage d lid f t fa ta g rest with
        | none =>
          rw [hrest] at h
          cases h
        | some cs' =>
          rw [hrest] at h
          cases h
          have := ih cs' hrest
          simp only [specAvgCount, specAvgSum, List.filter_cons, hq, if_true, List.length_cons,
            List.map_cons, List.sum_cons, this, Prod.mk.injEq]
          constructor
          · push_cast
            ring
          · ring

theorem perm_filterMap {α β : Type} (fn : α → Option β) {l₁ l₂ : List α} (h : l₁.Perm l₂) :
    (l₁.filterMap fn).Perm (l₂.filterMap fn) := by
  induction h with
  | nil => exact List.Perm.refl _
  | cons x _ ih =>
    rw [List.filterMap_cons, List.filterMap_cons]
    cases fn x with
    | none => exact ih
    | some y => exact ih.cons y
  | swap x y l =>
    rw [List.filterMap_cons, List.filterMap_cons, List.filterMap_cons, List.filterMap_cons]
    cases fn x with
    | none =>
      cases fn y with
      | none => exact List.Perm.refl _
      | some b => exact List.Perm.refl _
    | some a =>
      cases fn y with
      | none => exact List.Perm.refl _
      | some b => exact List.Perm.swap a b _
  | trans _ _ ih₁ ih₂ => exact ih₁.trans ih₂

theorem sorted_perm_eq_of_nodup_keys :
    ∀ (l₁ l₂ : List VisitPlace), l₁.Perm l₂ → l₁.Sorted vpLe → l₂.Sorted vpLe →
      (l₁.map VisitPlace.visitedAt).Nodup → l₁ = l₂ := by
  intro l₁
  induction l₁ with
  | nil =>
    intro l₂ hp _ _ _
    exact (List.perm_nil.mp hp.symm).symm
  | cons a t₁ ih =>
    intro l₂ hp hs₁ hs₂ hnd
    cases l₂ with
    | nil => exact absurd (List.perm_nil.mp hp) (List.cons_ne_nil a t₁)
    | cons b t₂ =>
      rw [List.map_cons] at hnd
      have hnd' := List.nodup_cons.mp hnd
      by_cases hab : a = b
      · subst hab
        have := ih t₂ hp.cons_inv ((List.sorted_cons.mp hs₁).2) ((List.sorted_cons.mp hs₂).2)
          hnd'.2
        rw [this]
      · exfalso
        have hbmem : b ∈ a :: t₁ := hp.mem_iff.mpr (List.mem_cons_self b t₂)
        have hbt₁ : b ∈ t₁ := by
          rcases List.mem_cons.mp hbmem with he | hm
          · exact absurd he.symm hab
          · exact hm
        have hamem : a ∈ b :: t₂ := hp.mem_iff.mp (List.mem_cons_self a t₁)
        have hat₂ : a ∈ t₂ := by
          rcases List.mem_cons.mp hamem with he | hm
          · exact absurd he hab
          · exact hm
        have h₁ : vpLe a b := (List.sorted_cons.mp hs₁).1 b hbt₁
        have h₂ : vpLe b a := (List.sorted_cons.mp hs₂).1 a hat₂
        have hkey : b.visitedAt = a.visitedAt := le_antisymm h₂ h₁
        exact hnd'.1 (hkey ▸ List.mem_map_of_mem VisitPlace.visitedAt hbt₁)

theorem computeAge_eq_fixed_now (birth : Int) :
    computeAge birth = computeAgeAt 2018 12 15 birth :=
  rfl

/-- C10: in every reachable store state, each of the three collections
maps every present key to a record whose own id field equals that key:
the empty initial store satisfies this vacuously, every insert stores
the record under its own id, and the partial-update payloads carry no id
field, so updates never change a record's id. -/
theorem reachable_id_key_invariant : ∀ d : InmemoryDB, Reachable d → IdKeyInv d := by
  intro d h
  induction h with
  | init =>
    exact ⟨fun kv hkv => absurd hkv (List.not_mem_nil kv),
      fun kv hkv => absurd hkv (List.not_mem_nil kv),
      fun kv hkv => absurd hkv (List.not_mem_nil kv)⟩
  | addU d u _ ih =>
    unfold addUser
    cases hl : lookupId u.id d.users with
    | some _ => exact ih
    | none =>
      refine ⟨?_, ih.2.1, ih.2.2⟩
      intro kv hkv
      rcases List.mem_cons.mp hkv with he | hm
      · rw [he]
      · exact ih.1 kv hm
  | addL d loc _ ih =>
    unfold addLocation
    cases hl : lookupId loc.id d.locations with
    | some _ => exact ih
    | none =>
      refine ⟨ih.1, ?_, ih.2.2⟩
      intro kv hkv
      rcases List.mem_cons.mp hkv with he | hm
      · rw [he]
      · exact ih.2.1 kv hm
  | addV d v _ ih =>
    unfold addVisit
    cases hl : lookupId v.id d.visits with
    | some _ => exact ih
    | none =>
      refine ⟨ih.1, ih.2.1, ?_⟩
      intro kv hkv
      rcases List.mem_cons.mp hkv with he | hm
      · rw [he]
      · exact ih.2.2 kv hm
  | updU d id upd _ ih =>
    unfold updateUser
    cases hl : lookupId id d.users with
    | none => exact ih
    | some _ =>
      refine ⟨?_, ih.2.1, ih.2.2⟩
      intro kv hkv
      rcases List.mem_map.mp hkv with ⟨kv₀, hkv₀, he⟩
      by_cases hid : kv₀.1 = id
      · rw [← he, if_pos hid]
        exact ih.1 kv₀ hkv₀
      · rw [← he, if_neg hid]
        exact ih.1 kv₀ hkv₀
  | updL d id upd _ ih =>
    unfold updateLocation
    cases hl : lookupId id d.locations with
    | none => exact ih
    | some _ =>
      refine ⟨ih.1, ?_, ih.2.2⟩
      intro kv hkv
      rcases List.mem_map.mp hkv with ⟨kv₀, hkv₀, he⟩
      by_cases hid : kv₀.1 = id
      · rw [← he, if_pos hid]
        exact ih.2.1 kv₀ hkv₀
      · rw [← he, if_neg hid]
        exact ih.2.1 kv₀ hkv₀
  | updV d id upd _ ih =>
    unfold updateVisit
    cases hl : lookupId id d.visits with
    | none => exact ih
    | some _ =>
      refine ⟨ih.1, ih.2.1, ?_⟩
      intro kv hkv
      rcases List.mem_map.mp hkv with ⟨kv₀, hkv₀, he⟩
      by_cases hid : kv₀.1 = id
      · rw [← he, if_pos hid]
        exact ih.2.2 kv₀ hkv₀
      · rw [← he, if_neg hid]
        exact ih.2.2 kv₀ hkv₀

/-- C1: for every store state and record, insert into the record's
collection succeeds and makes the record visible to a subsequent get of
its id when no record with that id is present, and fails with the
conflict error when one is, in which case the store — and in particular
the stored record — is unchanged. -/
theorem store_insert_visibility_and_conflict (d : InmemoryDB) (u : User) (loc : Location)
    (v : Visit) :
    (getUser d u.id = none →
      (addUser d u).1 = none ∧ getUser (addUser d u).2 u.id = some u) ∧
    (∀ w, getUser d u.id = some w →
      (addUser d u).1 = some DBError.errConflictID ∧ (addUser d u).2 = d ∧
        getUser (addUser d u).2 u.id = some w) ∧
    (getLocation d loc.id = none →
      (addLocation d loc).1 = none ∧ getLocation (addLocation d loc).2 loc.id = some loc) ∧
    (∀ w, getLocation d loc.id = some w →
      (addLocation d loc).1 = some DBError.errConflictID ∧ (addLocation d loc).2 = d ∧
        getLocation (addLocation d loc).2 loc.id = some w) ∧
    (getVisit d v.id = none →
      (addVisit d v).1 = none ∧ getVisit (addVisit d v).2 v.id = some v) ∧
    (∀ w, getVisit d v.id = some w →
      (addVisit d v).1 = some DBError.errConflictID ∧ (addVisit d v).2 = d ∧
        getVisit (addVisit d v).2 v.id = some w) := by
  unfold getUser getLocation getVisit addUser addLocation addVisit
  refine ⟨?_, ?_, ?_, ?_, ?_, ?_⟩
  · intro h
    rw [h]
    exact ⟨rfl, by simp [lookupId]⟩
  · intro w h
    rw [h]
    exact ⟨rfl, rfl, h⟩
  · intro h
    rw [h]
    exact ⟨rfl, by simp [lookupId]⟩
  · intro w h
    rw [h]
    exact ⟨rfl, rfl, h⟩
  · intro h
    rw [h]
    exact ⟨rfl, by simp [lookupId]⟩
  · intro w h
    rw [h]
    exact ⟨rfl, rfl, h⟩

/-- C4: the partial-update merge overwrites exactly the fields the
payload explicitly provides (an explicitly supplied empty string
included) and preserves every omitted field, for all three record
types; in particular a User with gender `"m"` updated with a payload
containing only `first_name "X"` keeps gender `"m"` and gets first name
`"X"`. -/
theorem partial_update_frame (u : User) (pu : UserUpdate) (loc : Location)
    (pl : LocationUpdate) (v : Visit) (pv : VisitUpdate) :
    ((applyUserUpdate u pu).email = pu.email.getD u.email ∧
      (applyUserUpdate u pu).firstName = pu.firstName.getD u.firstName ∧
      (applyUserUpdate u pu).lastName = pu.lastName.getD u.lastName ∧
      (applyUserUpdate u pu).gender = pu.gender.getD u.gender ∧
      (applyUserUpdate u pu).birthDate = pu.birthDate.getD u.birthDate) ∧
    ((applyLocationUpdate loc pl).place = pl.place.getD loc.place ∧
      (applyLocationUpdate loc pl).country = pl.country.getD loc.country ∧
      (applyLocationUpdate loc pl).city = pl.city.getD loc.city ∧
      (applyLocationUpdate loc pl).distance = pl.distance.getD loc.distance) ∧
    ((applyVisitUpdate v pv).location = pv.location.getD v.location ∧
      (applyVisitUpdate v pv).user = pv.user.getD v.user ∧
      (applyVisitUpdate v pv).visitedAt = pv.visitedAt.getD v.visitedAt ∧
      (applyVisitUpdate v pv).mark = pv.mark.getD v.mark) ∧
    (applyUserUpdate ⟨1, "e", "f", "l", "m", 0⟩
      ⟨none, some "X", none, none, none⟩).gender = "m" ∧
    (applyUserUpdate ⟨1, "e", "f", "l", "m", 0⟩
      ⟨none, some "X", none, none, none⟩).firstName = "X" ∧
    (applyUserUpdate u ⟨some "", none, none, none, none⟩).email = "" :=
  ⟨⟨rfl, rfl, rfl, rfl, rfl⟩, ⟨rfl, rfl, rfl, rfl⟩, ⟨rfl, rfl, rfl, rfl⟩, rfl, rfl, rfl⟩

/-- C6: the computed age equals current.year minus birth.year,
decremented by one exactly when the current month (12) is before the
birth month, or the months are equal and the current day (15) is before
the birth day; a person born 2000-12-14 (exactly 18 years and one day
earlier in the month than the fixed current moment 2018-12-15) has age
18, and one born 2000-12-16 (one day later in the month) has age 17. -/
theorem computeAge_calendar_semantics :
    (∀ birth : Int, computeAge birth =
      2018 - (civilOfUnix birth).1 -
        (if 12 < (civilOfUnix birth).2.1 ∨
            (12 = (civilOfUnix birth).2.1 ∧ 15 < (civilOfUnix birth).2.2) then 1 else 0)) ∧
    civilOfUnix 976752000 = (2000, 12, 14) ∧ computeAge 976752000 = 18 ∧
    civilOfUnix 976924800 = (2000, 12, 16) ∧ computeAge 976924800 = 17 := by
  refine ⟨?_, by decide, by decide, by decide, by decide⟩
  intro birth
  simp only [computeAge]
  split_ifs <;> omega

/-- C9 (the claim is what the spec requires; the code violates it): in
`updateUserHandler` the only lock activity of the whole read-modify-write
sequence is the read lock acquired and released inside `getUser`; the
merged fields are then written through the retained pointer with no lock
held at all, and the handler never acquires the exclusive write lock. -/
theorem updateUserHandler_writes_without_write_lock :
    writesUnderWriteLock 0 updateUserHandlerTrace = false ∧
    updateUserHandlerTrace.count DBLockOp.wLock = 0 := by
  decide

/-- C2: whenever `queryVisits` returns (i.e. no dangling location
reference is dereferenced during the scan — on a dangling reference the
Go code panics, spec §9 leaves that case open), the returned list
consists of exactly the VisitPlace projections of those visits that
belong to `userID`, whose `visited_at` lies strictly between the date
bounds, whose resolved location's country matches a non-empty country
filter when one was given, and whose resolved location's distance is
strictly below `toDistance`. -/
theorem queryVisits_exactly_qualifying (d : InmemoryDB) (userID fromDate toDate : Int)
    (country : String) (toDistance : Int) (l : List VisitPlace)
    (h : queryVisits d userID fromDate toDate country toDistance = some l) :
    l.Perm (specVisitList d.locations userID fromDate toDate country toDistance
      (listValues d.visits)) := by
  unfold queryVisits at h
  cases hs : scanVisits d userID fromDate toDate country toDistance (listValues d.visits) with
  | none =>
    rw [hs] at h
    cases h
  | some r =>
    rw [hs] at h
    simp only [Option.map_some'] at h
    cases h
    rw [← scanVisits_some_eq d userID fromDate toDate country toDistance
      (listValues d.visits) r hs]
    exact List.perm_insertionSort vpLe r

/-- C3: whenever `queryAverage` returns, the result is the sum of the
marks divided by the count, taken over exactly those visits at
`locationID` whose `visited_at` lies strictly between the date bounds,
whose resolved user passes a non-empty gender filter when one was given,
and whose computed age lies strictly between the age bounds (with the
code's explicit zero branch when no visit qualifies). -/
theorem queryAverage_characterization (d : InmemoryDB) (lid f t fa ta : Int) (g : String)
    (r : ℚ) (h : queryAverage d lid f t fa ta g = some r) :
    r = if specAvgCount d.users lid f t fa ta g (listValues d.visits) = 0 then 0
        else (specAvgSum d.users lid f t fa ta g (listValues d.visits) : ℚ) /
          (specAvgCount d.users lid f t fa ta g (listValues d.visits) : ℚ) := by
  unfold queryAverage at h
  cases hs : scanAverage d lid f t fa ta g (listValues d.visits) with
  | none =>
    rw [hs] at h
    cases h
  | some cs =>
    rw [hs] at h
    simp only [Option.map_some'] at h
    cases h
    rw [scanAverage_some_eq d lid f t fa ta g (listValues d.visits) cs hs]

/-- C5: whenever `queryAverage` returns and no visit passes all its
filters, the result is exactly `0`, produced by the explicit
`count == 0` branch of the code rather than by dividing by zero. -/
theorem queryAverage_zero_when_none_qualify (d : InmemoryDB) (lid f t fa ta : Int)
    (g : String) (r : ℚ) (h : queryAverage d lid f t fa ta g = some r)
    (hz : specAvgCount d.users lid f t fa ta g (listValues d.visits) = 0) :
    r = 0 := by
  unfold queryAverage at h
  cases hs : scanAverage d lid f t fa ta g (listValues d.visits) with
  | none =>
    rw [hs] at h
    cases h
  | some cs =>
    rw [hs] at h
    simp only [Option.map_some'] at h
    cases h
    rw [scanAverage_some_eq d lid f t fa ta g (listValues d.visits) cs hs]
    exact if_pos hz

/-- C7 (amended): for every store, whenever `queryVisits` returns, the
returned list is non-decreasing in `visited_at`; two runs of the same
query over the same store contents (the two visit lists are permutations
of one another, modelling the two randomized Go-map iteration orders of
an unmodified store) return the same multiset of projections, and
identical lists whenever no two returned entries share a `visited_at`.
With ties the ordering may differ between runs — see the
counterexample. -/
theorem queryVisits_sorted_and_deterministic_up_to_ties
    (d₁ d₂ : InmemoryDB) (userID fromDate toDate : Int) (country : String) (toDistance : Int)
    (l₁ l₂ : List VisitPlace)
    (hloc : d₁.locations = d₂.locations)
    (hperm : d₁.visits.Perm d₂.visits)
    (h₁ : queryVisits d₁ userID fromDate toDate country toDistance = some l₁)
    (h₂ : queryVisits d₂ userID fromDate toDate country toDistance = some l₂) :
    l₁.Sorted vpLe ∧ l₁.Perm l₂ ∧
      ((l₁.map VisitPlace.visitedAt).Nodup → l₁ = l₂) := by
  unfold queryVisits at h₁ h₂
  cases hs₁ : scanVisits d₁ userID fromDate toDate country toDistance (listValues d₁.visits) with
  | none =>
    rw [hs₁] at h₁
    cases h₁
  | some r₁ =>
    cases hs₂ : scanVisits d₂ userID fromDate toDate country toDistance
        (listValues d₂.visits) with
    | none =>
      rw [hs₂] at h₂
      cases h₂
    | some r₂ =>
      rw [hs₁] at h₁
      rw [hs₂] at h₂
      simp only [Option.map_some'] at h₁ h₂
      cases h₁
      cases h₂
      have hr₁ := scanVisits_some_eq d₁ userID fromDate toDate country toDistance
        (listValues d₁.visits) r₁ hs₁
      have hr₂ := scanVisits_some_eq d₂ userID fromDate toDate country toDistance
        (listValues d₂.visits) r₂ hs₂
      have hvperm : (listValues d₁.visits).Perm (listValues d₂.visits) := hperm.map Prod.snd
      have hrperm : r₁.Perm r₂ := by
        rw [hr₁, hr₂, ← hloc]
        exact perm_filterMap _ hvperm
      have hsort₁ : (sortVisits r₁).Sorted vpLe := List.sorted_insertionSort vpLe r₁
      have hsort₂ : (sortVisits r₂).Sorted vpLe := List.sorted_insertionSort vpLe r₂
      have hlperm : (sortVisits r₁).Perm (sortVisits r₂) :=
        ((List.perm_insertionSort vpLe r₁).trans hrperm).trans
          (List.perm_insertionSort vpLe r₂).symm
      exact ⟨hsort₁, hlperm,
        fun hnd => sorted_perm_eq_of_nodup_keys _ _ hlperm hsort₁ hsort₂ hnd⟩

/-- C8 (amended): whenever `queryAverage` returns, its result is the
spec's now-parametric average-mark query evaluated at the fixed current
moment 2018-12-15 that the code hardwires into `computeAge`; together
with C8's counterexample this shows the current moment is a fixed
constant — never the real wall clock, so results for a fixed dataset are
reproducible — but not a caller-injectable argument. -/
theorem queryAverage_fixed_now_refinement (d : InmemoryDB) (lid f t fa ta : Int) (g : String)
    (r : ℚ) (h : queryAverage d lid f t fa ta g = some r) :
    r = queryAverageSpecNow 2018 12 15 d lid f t fa ta g := by
  unfold queryAverage at h
  cases hs : scanAverage d lid f t fa ta g (listValues d.visits) with
  | none =>
    rw [hs] at h
    cases h
  | some cs =>
    rw [hs] at h
    simp only [Option.map_some'] at h
    cases h
    rw [scanAverage_some_eq d lid f t fa ta g (listValues d.visits) cs hs]
    have hfil : (listValues d.visits).filter
        (avgQualifiesAt 2018 12 15 d.users lid f t fa ta g) =
        (listValues d.visits).filter (avgQualifies d.users lid f t fa ta g) := rfl
    simp only [queryAverageSpecNow, specAvgCount, specAvgSum, hfil]
    by_cases hc :
        ((listValues d.visits).filter (avgQualifies d.users lid f t fa ta g)).length = 0
    · rw [if_pos (by exact_mod_cast hc), if_pos hc]
    · rw [if_neg (fun hcc => hc (by exact_mod_cast hcc)), if_neg hc]
      push_cast
      ring

/-- Concrete records and stores used by the witnesses below. -/
def userW : User := ⟨1, "a@b", "f", "l", "m", 0⟩

def locW : Location := ⟨10, "park", "jp", "tokyo", 50⟩

def visitW : Visit := ⟨100, 10, 1, 150, 4⟩

def vpW : VisitPlace := ⟨"park", 150, 4⟩

def dbW : InmemoryDB := ⟨[(1, userW)], [(10, locW)], [(100, visitW)]⟩

def dbW3 : InmemoryDB :=
  ⟨[(1, userW)], [(10, locW)],
    [(100, ⟨100, 10, 1, 150, 2⟩), (101, ⟨101, 10, 1, 160, 4⟩), (102, ⟨102, 10, 1, 170, 6⟩)]⟩

/-- Same store contents in two map-iteration orders, with two qualifying
visits sharing `visited_at = 150`. -/
def dbTieA : InmemoryDB :=
  ⟨[(1, userW)], [(10, locW)], [(100, ⟨100, 10, 1, 150, 1⟩), (101, ⟨101, 10, 1, 150, 2⟩)]⟩

def dbTieB : InmemoryDB :=
  ⟨[(1, userW)], [(10, locW)], [(101, ⟨101, 10, 1, 150, 2⟩), (100, ⟨100, 10, 1, 150, 1⟩)]⟩

/-- Same store contents in two map-iteration orders, with distinct
`visited_at` values. -/
def dbRunA : InmemoryDB :=
  ⟨[(1, userW)], [(10, locW)], [(100, ⟨100, 10, 1, 160, 1⟩), (101, ⟨101, 10, 1, 150, 2⟩)]⟩

def dbRunB : InmemoryDB :=
  ⟨[(1, userW)], [(10, locW)], [(101, ⟨101, 10, 1, 150, 2⟩), (100, ⟨100, 10, 1, 160, 1⟩)]⟩

def vpRun1 : VisitPlace := ⟨"park", 150, 2⟩

def vpRun2 : VisitPlace := ⟨"park", 160, 1⟩

/-- A user born 2000-06-01 UTC, aged 18 at the fixed moment 2018-12-15
but 39 at 2040-01-01. -/
def userBornJune2000 : User := ⟨2, "a@b", "f", "l", "m", 959817600⟩

def dbAge : InmemoryDB :=
  ⟨[(2, userBornJune2000)], [(10, locW)], [(100, ⟨100, 10, 2, 150, 5⟩)]⟩

def dbUpd : InmemoryDB :=
  updateUser (addUser newInmemoryDB userW).2 1 ⟨none, some "X", none, none, none⟩

theorem store_insert_visibility_and_conflict_check :
    getUser newInmemoryDB 1 = none ∧
    ((addUser newInmemoryDB userW).1 = none ∧
      getUser (addUser newInmemoryDB userW).2 1 = some userW) ∧
    ((addUser (addUser newInmemoryDB userW).2 userW).1 = some DBError.errConflictID ∧
      (addUser (addUser newInmemoryDB userW).2 userW).2 = (addUser newInmemoryDB userW).2 ∧
      getUser (addUser (addUser newInmemoryDB userW).2 userW).2 1 = some userW) := by
  refine ⟨rfl, ?_, ?_⟩
  · exact (store_insert_visibility_and_conflict newInmemoryDB userW locW visitW).1 rfl
  · exact (store_insert_visibility_and_conflict (addUser newInmemoryDB userW).2 userW locW
      visitW).2.1 userW rfl

theorem queryVisits_exactly_qualifying_check :
    queryVisits dbW 1 100 300 "" 1000 = some [vpW] ∧
    ([vpW] : List VisitPlace).Perm
      (specVisitList dbW.locations 1 100 300 "" 1000 (listValues dbW.visits)) :=
  ⟨by decide, queryVisits_exactly_qualifying dbW 1 100 300 "" 1000 [vpW] (by decide)⟩

theorem queryAverage_characterization_check :
    queryAverage dbW3 10 100 300 (-1000) 1000 "" =
      some (((12 : Int) : ℚ) / ((3 : Int) : ℚ)) ∧
    (((12 : Int) : ℚ) / ((3 : Int) : ℚ) =
      if specAvgCount dbW3.users 10 100 300 (-1000) 1000 "" (listValues dbW3.visits) = 0
      then 0
      else (specAvgSum dbW3.users 10 100 300 (-1000) 1000 "" (listValues dbW3.visits) : ℚ) /
        (specAvgCount dbW3.users 10 100 300 (-1000) 1000 "" (listValues dbW3.visits) : ℚ)) ∧
    ((12 : Int) : ℚ) / ((3 : Int) : ℚ) = 4 := by
  refine ⟨rfl, ?_, by norm_num⟩
  exact queryAverage_characterization dbW3 10 100 300 (-1000) 1000 ""
    (((12 : Int) : ℚ) / ((3 : Int) : ℚ)) rfl

theorem queryAverage_zero_when_none_qualify_check :
    queryAverage dbW3 99 100 300 (-1000) 1000 "" = some 0 ∧
    specAvgCount dbW3.users 99 100 300 (-1000) 1000 "" (listValues dbW3.visits) = 0 ∧
    (0 : ℚ) = 0 :=
  ⟨rfl, rfl, queryAverage_zero_when_none_qualify dbW3 99 100 300 (-1000) 1000 "" 0 rfl rfl⟩

/-- C7 counterexample: the same store contents iterated in two different
map orders (as Go's randomized map iteration does across two runs of the
same query on an unmodified store) yield differently ordered result
lists when two qualifying visits share a `visited_at`. -/
theorem queryVisits_tie_order_run_dependent :
    dbTieA.visits.Perm dbTieB.visits ∧
    dbTieA.locations = dbTieB.locations ∧ dbTieA.users = dbTieB.users ∧
    queryVisits dbTieA 1 100 300 "" 1000 ≠ queryVisits dbTieB 1 100 300 "" 1000 := by
  decide

theorem queryVisits_sorted_and_deterministic_up_to_ties_check :
    queryVisits dbRunA 1 100 300 "" 1000 = some [vpRun1, vpRun2] ∧
    queryVisits dbRunB 1 100 300 "" 1000 = some [vpRun1, vpRun2] ∧
    (([vpRun1, vpRun2] : List VisitPlace).Sorted vpLe ∧
      ([vpRun1, vpRun2] : List VisitPlace).Perm [vpRun1, vpRun2] ∧
      (([vpRun1, vpRun2].map VisitPlace.visitedAt).Nodup →
        ([vpRun1, vpRun2] : List VisitPlace) = [vpRun1, vpRun2])) := by
  refine ⟨by decide, by decide, ?_⟩
  exact queryVisits_sorted_and_deterministic_up_to_ties dbRunA dbRunB 1 100 300 "" 1000
    [vpRun1, vpRun2] [vpRun1, vpRun2] rfl (by decide) (by decide) (by decide)

/-- C8 counterexample: `queryAverage` takes no `now` argument, and its
result does not track an injected current moment: on a store whose only
visit is by a user born 2000-06-01, with age bounds `17 < age < 19`, the
code returns the average 5 (age 18 at its baked-in moment 2018-12-15),
while the spec's now-parametric query evaluated at a caller-supplied now
of 2040-01-01 returns 0 for the very same arguments. -/
theorem queryAverage_now_not_injectable :
    queryAverage dbAge 10 100 300 17 19 "" = some (((5 : Int) : ℚ) / ((1 : Int) : ℚ)) ∧
    queryAverageSpecNow 2040 1 1 dbAge 10 100 300 17 19 "" = 0 ∧
    ((5 : Int) : ℚ) / ((1 : Int) : ℚ) ≠ 0 := by
  refine ⟨rfl, rfl, by norm_num⟩

theorem queryAverage_fixed_now_refinement_check :
    queryAverage dbAge 10 100 300 17 19 "" = some (((5 : Int) : ℚ) / ((1 : Int) : ℚ)) ∧
    ((5 : Int) : ℚ) / ((1 : Int) : ℚ) =
      queryAverageSpecNow 2018 12 15 dbAge 10 100 300 17 19 "" :=
  ⟨rfl, queryAverage_fixed_now_refinement dbAge 10 100 300 17 19 ""
    (((5 : Int) : ℚ) / ((1 : Int) : ℚ)) rfl⟩

theorem reachable_id_key_invariant_check :
    Reachable dbUpd ∧ IdKeyInv dbUpd := by
  have hr : Reachable dbUpd :=
    Reachable.updU (addUser newInmemoryDB userW).2 1 ⟨none, some "X", none, none, none⟩
      (Reachable.addU newInmemoryDB userW Reachable.init)
  exact ⟨hr, reachable_id_key_invariant dbUpd hr⟩
